import Mathlib

/-!
Verification of the Universal Syntax Tree (UST) engine of the Lea repository:
a shallow embedding in Lean 4 of `src/models/ast_universal.py`,
`src/parsers/base_parser.py`, `src/parsers/python_parser.py`,
`src/parsers/javascript_parser.py` and the analysis helpers of
`src/routes/ast_api.py`, together with theorems settling the frozen claims
about that code.

Conventions of the embedding:
* Python scalar values (the schema-less attribute bag, literal values,
  metadata entries) are modelled by the inductive `PyVal`.  A Python float
  is carried as its literal text, since no claim computes with floats.
* Python dicts are modelled as insertion-ordered association lists with
  insert-or-update assignment (`dictSet`) and `.get` lookup (`dictGet`).
* Machine strings are processed as `List Char`; the Python source indexes
  strings by character, which matches.
* `uuid.uuid4()` (the default `ASTNode.id`) is modelled by an explicit
  supply `Nat → String` of fresh identifier strings threaded through node
  creation, making the nondeterminism of the id stream explicit.
-/

/-- Model of the Python scalar/structured values stored in attribute bags,
metadata maps and literal nodes. -/
inductive PyVal where
  | vNone : PyVal
  | vBool (b : Bool) : PyVal
  | vInt (n : Int) : PyVal
  | vFloat (lit : String) : PyVal
  | vStr (s : String) : PyVal
  | vList (xs : List PyVal) : PyVal
  | vDict (fields : List (String × PyVal)) : PyVal

open PyVal

/-- Python dict lookup `d.get(k)` over an insertion-ordered association list. -/
def dictGet {α : Type} (d : List (String × α)) (k : String) : Option α :=
  match d with
  | [] => none
  | (k', v) :: rest => if k' = k then some v else dictGet rest k

/-- Python dict assignment `d[k] = v`: update in place when the key exists,
append otherwise (Python dicts preserve insertion order). -/
def dictSet {α : Type} (d : List (String × α)) (k : String) (v : α) :
    List (String × α) :=
  match d with
  | [] => [(k, v)]
  | (k', v') :: rest =>
      if k' = k then (k', v) :: rest else (k', v') :: dictSet rest k v

/-- `NodeType` of `ast_universal.py`: the closed enumeration of UST node
categories. -/
inductive NodeType where
  | PROGRAM | MODULE
  | VARIABLE_DECLARATION | FUNCTION_DECLARATION | CLASS_DECLARATION
  | INTERFACE_DECLARATION | IMPORT_DECLARATION
  | LITERAL | IDENTIFIER | BINARY_EXPRESSION | UNARY_EXPRESSION
  | CALL_EXPRESSION | MEMBER_EXPRESSION | ASSIGNMENT_EXPRESSION
  | EXPRESSION_STATEMENT | BLOCK_STATEMENT | IF_STATEMENT | WHILE_STATEMENT
  | FOR_STATEMENT | RETURN_STATEMENT | BREAK_STATEMENT | CONTINUE_STATEMENT
  | PRIMITIVE_TYPE | ARRAY_TYPE | OBJECT_TYPE | FUNCTION_TYPE
  | COMMENT | ANNOTATION
deriving DecidableEq, Repr

/-- The `.value` string of each `NodeType` member, as written in the enum. -/
def NodeType.value : NodeType → String
  | .PROGRAM => "program"
  | .MODULE => "module"
  | .VARIABLE_DECLARATION => "variable_declaration"
  | .FUNCTION_DECLARATION => "function_declaration"
  | .CLASS_DECLARATION => "class_declaration"
  | .INTERFACE_DECLARATION => "interface_declaration"
  | .IMPORT_DECLARATION => "import_declaration"
  | .LITERAL => "literal"
  | .IDENTIFIER => "identifier"
  | .BINARY_EXPRESSION => "binary_expression"
  | .UNARY_EXPRESSION => "unary_expression"
  | .CALL_EXPRESSION => "call_expression"
  | .MEMBER_EXPRESSION => "member_expression"
  | .ASSIGNMENT_EXPRESSION => "assignment_expression"
  | .EXPRESSION_STATEMENT => "expression_statement"
  | .BLOCK_STATEMENT => "block_statement"
  | .IF_STATEMENT => "if_statement"
  | .WHILE_STATEMENT => "while_statement"
  | .FOR_STATEMENT => "for_statement"
  | .RETURN_STATEMENT => "return_statement"
  | .BREAK_STATEMENT => "break_statement"
  | .CONTINUE_STATEMENT => "continue_statement"
  | .PRIMITIVE_TYPE => "primitive_type"
  | .ARRAY_TYPE => "array_type"
  | .OBJECT_TYPE => "object_type"
  | .FUNCTION_TYPE => "function_type"
  | .COMMENT => "comment"
  | .ANNOTATION => "annotation"

/-- The enum value lookup `NodeType(s)`: the member whose `.value` is `s`,
`none` when no member matches (Python raises `ValueError` there). -/
def NodeType.ofValue (s : String) : Option NodeType :=
  if s = "program" then some .PROGRAM
  else if s = "module" then some .MODULE
  else if s = "variable_declaration" then some .VARIABLE_DECLARATION
  else if s = "function_declaration" then some .FUNCTION_DECLARATION
  else if s = "class_declaration" then some .CLASS_DECLARATION
  else if s = "interface_declaration" then some .INTERFACE_DECLARATION
  else if s = "import_declaration" then some .IMPORT_DECLARATION
  else if s = "literal" then some .LITERAL
  else if s = "identifier" then some .IDENTIFIER
  else if s = "binary_expression" then some .BINARY_EXPRESSION
  else if s = "unary_expression" then some .UNARY_EXPRESSION
  else if s = "call_expression" then some .CALL_EXPRESSION
  else if s = "member_expression" then some .MEMBER_EXPRESSION
  else if s = "assignment_expression" then some .ASSIGNMENT_EXPRESSION
  else if s = "expression_statement" then some .EXPRESSION_STATEMENT
  else if s = "block_statement" then some .BLOCK_STATEMENT
  else if s = "if_statement" then some .IF_STATEMENT
  else if s = "while_statement" then some .WHILE_STATEMENT
  else if s = "for_statement" then some .FOR_STATEMENT
  else if s = "return_statement" then some .RETURN_STATEMENT
  else if s = "break_statement" then some .BREAK_STATEMENT
  else if s = "continue_statement" then some .CONTINUE_STATEMENT
  else if s = "primitive_type" then some .PRIMITIVE_TYPE
  else if s = "array_type" then some .ARRAY_TYPE
  else if s = "object_type" then some .OBJECT_TYPE
  else if s = "function_type" then some .FUNCTION_TYPE
  else if s = "comment" then some .COMMENT
  else if s = "annotation" then some .ANNOTATION
  else none

theorem NodeType.ofValue_value (t : NodeType) : NodeType.ofValue t.value = some t := by
  cases t <;> rfl

/-- `DataType` of `ast_universal.py`: primitive value kinds for literals. -/
inductive DataType where
  | STRING | NUMBER | INTEGER | FLOAT | BOOLEAN | NULL | UNDEFINED | VOID | ANY
deriving DecidableEq, Repr

/-- `.value` of each `DataType` member. -/
def DataType.value : DataType → String
  | .STRING => "string"
  | .NUMBER => "number"
  | .INTEGER => "integer"
  | .FLOAT => "float"
  | .BOOLEAN => "boolean"
  | .NULL => "null"
  | .UNDEFINED => "undefined"
  | .VOID => "void"
  | .ANY => "any"

/-- `SourceLocation` of `ast_universal.py`. -/
structure SourceLocation where
  line : Int
  column : Int
  file_path : Option String
deriving DecidableEq, Repr

/-- `SourceRange` of `ast_universal.py`. -/
structure SourceRange where
  start : SourceLocation
  stop : SourceLocation
deriving DecidableEq, Repr

/-- `ASTNode` of `ast_universal.py`: id, type tag, ordered children,
string-keyed attribute bag, optional source range, original-language tag.
(An inductive rather than a structure because the children are `ASTNode`s.) -/
inductive ASTNode where
  | mk (id : String) (type : NodeType) (children : List ASTNode)
      (attributes : List (String × PyVal)) (source_range : Option SourceRange)
      (original_language : Option String)

def ASTNode.id : ASTNode → String
  | .mk i _ _ _ _ _ => i

def ASTNode.type : ASTNode → NodeType
  | .mk _ t _ _ _ _ => t

def ASTNode.children : ASTNode → List ASTNode
  | .mk _ _ cs _ _ _ => cs

def ASTNode.attributes : ASTNode → List (String × PyVal)
  | .mk _ _ _ attrs _ _ => attrs

def ASTNode.source_range : ASTNode → Option SourceRange
  | .mk _ _ _ _ sr _ => sr

def ASTNode.original_language : ASTNode → Option String
  | .mk _ _ _ _ _ ol => ol

/-- `ASTNode.add_child`: appends to the child sequence. -/
def ASTNode.add_child : ASTNode → ASTNode → ASTNode
  | .mk i t cs attrs sr ol, c => .mk i t (cs ++ [c]) attrs sr ol

/-- `ASTNode.set_attribute`. -/
def ASTNode.set_attribute : ASTNode → String → PyVal → ASTNode
  | .mk i t cs attrs sr ol, k, v => .mk i t cs (dictSet attrs k v) sr ol

/-- `ASTNode.get_attribute` (with default `None` modelled by `Option`). -/
def ASTNode.get_attribute (n : ASTNode) (k : String) : Option PyVal :=
  dictGet n.attributes k

/-- Replace a node's source range (`node.source_range = ...`). -/
def ASTNode.with_source_range : ASTNode → Option SourceRange → ASTNode
  | .mk i t cs attrs _ ol, sr => .mk i t cs attrs sr ol

/-! ## Canonical serialized form (`to_dict` / `from_dict`)

`ASTNode.to_dict` returns a Python dict of fixed shape (keys `id`, `type`,
`children`, `attributes`, `source_range`, `original_language`); we model that
shape directly.  `from_dict` reads exactly these keys back (`data['id']`,
`NodeType(data['type'])`, `data.get('attributes', {})`,
`if data.get('source_range')`, `data.get('children', [])`,
`data.get('original_language')`), so on output of `to_dict` the structured
model is faithful.  `NodeType(...)` can raise `ValueError`, hence the
`Option` result. -/

/-- The dict built for a `SourceLocation` inside `to_dict`. -/
structure LocDict where
  line : Int
  column : Int
  file_path : Option String
deriving DecidableEq, Repr

/-- The dict built for `source_range` inside `to_dict`. -/
structure RangeDict where
  start : LocDict
  stop : LocDict
deriving DecidableEq, Repr

/-- The dict `ASTNode.to_dict` returns, with children serialized recursively. -/
inductive NodeDict where
  | mk (id : String) (type : String) (children : List NodeDict)
      (attributes : List (String × PyVal)) (source_range : Option RangeDict)
      (original_language : Option String)

/-- The `source_range` entry written by `to_dict`. -/
def SourceRange.to_dict (r : SourceRange) : RangeDict :=
  ⟨⟨r.start.line, r.start.column, r.start.file_path⟩,
   ⟨r.stop.line, r.stop.column, r.stop.file_path⟩⟩

/-- The `SourceRange` rebuilt by `from_dict` from a `source_range` entry. -/
def SourceRange.of_dict (d : RangeDict) : SourceRange :=
  ⟨⟨d.start.line, d.start.column, d.start.file_path⟩,
   ⟨d.stop.line, d.stop.column, d.stop.file_path⟩⟩

mutual

/-- `ASTNode.to_dict` of `ast_universal.py`. -/
def ASTNode.to_dict : ASTNode → NodeDict
  | .mk i t cs attrs sr ol =>
      .mk i t.value (ASTNode.to_dict_list cs) attrs (sr.map SourceRange.to_dict) ol

/-- The `[child.to_dict() for child in self.children]` comprehension. -/
def ASTNode.to_dict_list : List ASTNode → List NodeDict
  | [] => []
  | c :: rest => c.to_dict :: ASTNode.to_dict_list rest

end

mutual

/-- `ASTNode.from_dict` of `ast_universal.py`; `none` models the `ValueError`
raised by `NodeType(data['type'])` on an unknown type string. -/
def ASTNode.from_dict : NodeDict → Option ASTNode
  | .mk i ty cs attrs sr ol =>
      match NodeType.ofValue ty with
      | none => none
      | some t =>
          match ASTNode.from_dict_list cs with
          | none => none
          | some cs' => some (.mk i t cs' attrs (sr.map SourceRange.of_dict) ol)

/-- The `[cls.from_dict(child) for child in data.get('children', [])]`
comprehension; any failing child fails the whole call. -/
def ASTNode.from_dict_list : List NodeDict → Option (List ASTNode)
  | [] => some []
  | c :: rest =>
      match ASTNode.from_dict c with
      | none => none
      | some c' =>
          match ASTNode.from_dict_list rest with
          | none => none
          | some rest' => some (c' :: rest')

end

theorem SourceRange.of_dict_to_dict (r : SourceRange) :
    SourceRange.of_dict r.to_dict = r := rfl

mutual

theorem ASTNode.from_dict_to_dict : ∀ n : ASTNode, ASTNode.from_dict n.to_dict = some n
  | .mk i t cs attrs sr ol => by
    have hcs := ASTNode.from_dict_list_to_dict_list cs
    simp only [ASTNode.to_dict, ASTNode.from_dict, NodeType.ofValue_value, hcs]
    cases sr <;> rfl

theorem ASTNode.from_dict_list_to_dict_list :
    ∀ cs : List ASTNode, ASTNode.from_dict_list (ASTNode.to_dict_list cs) = some cs
  | [] => rfl
  | c :: rest => by
    have h1 := ASTNode.from_dict_to_dict c
    have h2 := ASTNode.from_dict_list_to_dict_list rest
    simp only [ASTNode.to_dict_list, ASTNode.from_dict_list, h1, h2]

end

/-- `UniversalSyntaxTree` of `ast_universal.py`. -/
structure UniversalSyntaxTree where
  root : ASTNode
  metadata : List (String × PyVal)
  version : String

/-- The top-level dict `to_json` serializes (`version`, `metadata`, `root`);
we model `to_json`/`from_json` at this dict stage, before/after the literal
JSON text encoding (`json.dumps`/`json.loads`). -/
structure TreeDict where
  version : String
  metadata : List (String × PyVal)
  root : NodeDict

/-- `UniversalSyntaxTree.to_json`, at the dict stage. -/
def UniversalSyntaxTree.to_json (t : UniversalSyntaxTree) : TreeDict :=
  ⟨t.version, t.metadata, t.root.to_dict⟩

/-- `UniversalSyntaxTree.from_json`, at the dict stage. -/
def UniversalSyntaxTree.from_json (d : TreeDict) : Option UniversalSyntaxTree :=
  match ASTNode.from_dict d.root with
  | none => none
  | some root => some ⟨root, d.metadata, d.version⟩

/-- C1. Round trip: for every node, `from_dict (to_dict n)` rebuilds `n`
exactly — same id, type tag, child order and count, attribute keys and
values, source-range presence and values, and original-language tag — and
for every tree, `from_json (to_json t)` rebuilds `t` with the same root,
metadata and version. -/
theorem roundtrip_from_dict_to_dict :
    (∀ n : ASTNode, ASTNode.from_dict n.to_dict = some n) ∧
    (∀ t : UniversalSyntaxTree,
      UniversalSyntaxTree.from_json t.to_json = some t) := by
  refine ⟨ASTNode.from_dict_to_dict, fun t => ?_⟩
  simp only [UniversalSyntaxTree.to_json, UniversalSyntaxTree.from_json,
    ASTNode.from_dict_to_dict t.root]

/-! ## Parser abstraction and registry (`base_parser.py`)

`BaseParser` subclasses are modelled by a `Parser` record: the `language`
name, the `supported_extensions` list, and the `parse` method as a function.
(The registry methods `register_parser`, `get_parser`,
`get_parser_by_extension` are rendered in camel case in this embedding.) -/

/-- A registered language parser: `language`, `supported_extensions`, and the
`parse(source_code, file_path)` method. -/
structure Parser where
  language : String
  supported_extensions : List String
  parse : String → Option String → UniversalSyntaxTree

/-- `ParserRegistry`: the language-name → parser dict and the
extension → language-name dict. -/
structure ParserRegistry where
  parsers : List (String × Parser)
  extension_map : List (String × String)

/-- `ParserRegistry()`: both maps start empty. -/
def ParserRegistry.empty : ParserRegistry := ⟨[], []⟩

/-- `ParserRegistry.register_parser`: store the parser under its language
name, then map each of its extensions to that language name. -/
def ParserRegistry.registerParser (reg : ParserRegistry) (p : Parser) :
    ParserRegistry :=
  ⟨dictSet reg.parsers p.language p,
   p.supported_extensions.foldl (fun m ext => dictSet m ext p.language)
     reg.extension_map⟩

/-- `ParserRegistry.get_parser`. -/
def ParserRegistry.getParser (reg : ParserRegistry) (language : String) :
    Option Parser :=
  dictGet reg.parsers language

/-- Python `str.lower()` (character-wise; the extensions involved are ASCII). -/
def strLower (s : String) : String := String.mk (s.toList.map Char.toLower)

/-- `ParserRegistry.get_parser_by_extension`: look the lower-cased extension
up in the extension map and, when the mapped language name is truthy
(non-empty), the language up in the parser map. -/
def ParserRegistry.getParserByExtension (reg : ParserRegistry)
    (file_extension : String) : Option Parser :=
  match dictGet reg.extension_map (strLower file_extension) with
  | some language => if language = "" then none else dictGet reg.parsers language
  | none => none

/-- `ParserRegistry.list_supported_extensions`: the extension-map keys. -/
def ParserRegistry.listSupportedExtensions (reg : ParserRegistry) :
    List String :=
  reg.extension_map.map (fun kv => kv.1)

/-- The index of the last occurrence of `c`, as `str.rfind` uses it. -/
def lastIdxOf : List Char → Char → Option Nat
  | [], _ => none
  | x :: rest, c =>
      match lastIdxOf rest c with
      | some i => some (i + 1)
      | none => if x = c then some 0 else none

/-- The extension part of `os.path.splitext(p)` (posix rules): the suffix from
the last dot, provided that dot comes after the last path separator and the
base name does not consist of leading dots only up to it. -/
def splitextExt (p : String) : String :=
  let cs := p.toList
  match lastIdxOf cs '.' with
  | none => ""
  | some d =>
      let fileStart := match lastIdxOf cs '/' with
        | none => 0
        | some si => si + 1
      if fileStart ≤ d then
        if ((cs.drop fileStart).take (d - fileStart)).any (fun c => c ≠ '.') then
          String.mk (cs.drop d)
        else ""
      else ""

/-- Python truthiness of an optional string argument (`if language:`):
`None` and the empty string are falsy. -/
def truthyStr : Option String → Option String
  | none => none
  | some s => if s = "" then none else some s

/-- `str(x)` of an optional string, as an f-string renders it. -/
def optRepr : Option String → String
  | none => "None"
  | some s => s

/-- The `ValueError` message `parse_code` raises when no parser is found. -/
def noParserMsg (language file_path : Option String) : String :=
  "Aucun parser trouvé pour le langage '" ++ optRepr language ++
    "' ou le fichier '" ++ optRepr file_path ++ "'"

/-- The parser-resolution step of `parse_code`: the explicit (truthy)
language argument first; otherwise, with a (truthy) file path, the extension
of the path; otherwise nothing. -/
def resolveParser (reg : ParserRegistry) (language file_path : Option String) :
    Option Parser :=
  match truthyStr language with
  | some l => reg.getParser l
  | none =>
      match truthyStr file_path with
      | some fp => reg.getParserByExtension (splitextExt fp)
      | none => none

/-- `parse_code(source_code, language, file_path)` of `base_parser.py`:
resolve a parser, raise `ValueError` (the code's `UnsupportedLanguageError`)
when none resolves, delegate to the parser's `parse` otherwise. -/
def parse_code (reg : ParserRegistry) (source_code : String)
    (language file_path : Option String) :
    Except String UniversalSyntaxTree :=
  match resolveParser reg language file_path with
  | none => .error (noParserMsg language file_path)
  | some p => .ok (p.parse source_code file_path)

/-- C2. `parse_code` resolves in priority order — a truthy explicit language
argument is consulted first and alone; otherwise a truthy file path's
extension; a raised `ValueError` (the `UnsupportedLanguageError` of the spec)
exactly when the prioritized resolution yields no parser, in particular for
an unknown extension `.xyz` with no language hint; on success it delegates
to the resolved parser's `parse`. -/
theorem parse_code_dispatch :
    (∀ (reg : ParserRegistry) (src l : String) (fp : Option String), l ≠ "" →
      parse_code reg src (some l) fp =
        match reg.getParser l with
        | some p => .ok (p.parse src fp)
        | none => .error (noParserMsg (some l) fp)) ∧
    (∀ (reg : ParserRegistry) (src fp : String), fp ≠ "" →
      parse_code reg src none (some fp) =
        match reg.getParserByExtension (splitextExt fp) with
        | some p => .ok (p.parse src (some fp))
        | none => .error (noParserMsg none (some fp))) ∧
    (∀ (reg : ParserRegistry) (src : String),
      parse_code reg src none none = .error (noParserMsg none none)) ∧
    (∀ (reg : ParserRegistry) (src : String),
      dictGet reg.extension_map ".xyz" = none →
      parse_code reg src none (some "foo.xyz") =
        .error (noParserMsg none (some "foo.xyz"))) := by
  refine ⟨fun reg src l fp hl => ?_, fun reg src fp hfp => ?_,
    fun reg src => rfl, fun reg src hxyz => ?_⟩
  · simp only [parse_code, resolveParser, truthyStr, if_neg hl]
    cases reg.getParser l <;> rfl
  · simp only [parse_code, resolveParser, truthyStr, if_neg hfp]
    cases reg.getParserByExtension (splitextExt fp) <;> rfl
  · have hsplit : splitextExt "foo.xyz" = ".xyz" := rfl
    have hlow : strLower ".xyz" = ".xyz" := rfl
    have htr : truthyStr (some "foo.xyz") = some "foo.xyz" := rfl
    have htr0 : truthyStr (none : Option String) = none := rfl
    simp only [parse_code, resolveParser, htr0, htr, hsplit,
      ParserRegistry.getParserByExtension, hlow, hxyz]

/-- Witness for C2 at concrete inputs: the empty registry resolves nothing,
and the unknown extension `.xyz` with no hint raises. -/
theorem parse_code_dispatch_witness :
    parse_code ParserRegistry.empty "x" (some "python") none =
      .error (noParserMsg (some "python") none) ∧
    parse_code ParserRegistry.empty "x" none (some "foo.xyz") =
      .error (noParserMsg none (some "foo.xyz")) := by
  constructor
  · have h := parse_code_dispatch.1 ParserRegistry.empty "x" "python" none
      (by decide)
    simpa using h
  · exact parse_code_dispatch.2.2.2 ParserRegistry.empty "x" rfl

/-! ## The registry invariant (C9) -/

/-- The registry invariant of C9: every language name stored as a value of
the extension map is a key of the parser map. -/
def RegInvariant (reg : ParserRegistry) : Prop :=
  ∀ ext lang, dictGet reg.extension_map ext = some lang →
    (dictGet reg.parsers lang).isSome = true

theorem dictGet_dictSet {α : Type} (d : List (String × α)) (k : String)
    (v : α) (k2 : String) :
    dictGet (dictSet d k v) k2 = if k = k2 then some v else dictGet d k2 := by
  induction d with
  | nil => simp [dictSet, dictGet]
  | cons hd tl ih =>
      obtain ⟨k', v'⟩ := hd
      by_cases h1 : k' = k
      · rw [dictSet, if_pos h1]
        simp only [dictGet]
        by_cases h2 : k' = k2
        · rw [if_pos h2, if_pos (h1.symm.trans h2)]
        · rw [if_neg h2, if_neg (fun h => h2 (h1.trans h)), if_neg h2]
      · rw [dictSet, if_neg h1]
        simp only [dictGet, ih]
        by_cases h2 : k' = k2
        · rw [if_pos h2, if_pos h2, if_neg (fun h => h1 (h2.trans h.symm))]
        · rw [if_neg h2, if_neg h2]

theorem dictGet_foldl_dictSet (exts : List String)
    (m : List (String × String)) (L ext lang : String)
    (h : dictGet (exts.foldl (fun m e => dictSet m e L) m) ext = some lang) :
    lang = L ∨ dictGet m ext = some lang := by
  induction exts generalizing m with
  | nil => exact Or.inr h
  | cons e es ih =>
      rcases ih (dictSet m e L) h with hL | hrest
      · exact Or.inl hL
      · rw [dictGet_dictSet] at hrest
        by_cases he : e = ext
        · rw [if_pos he] at hrest
          exact Or.inl (Option.some_injective _ hrest).symm
        · rw [if_neg he] at hrest
          exact Or.inr hrest

/-- C9 (amended). Every `register_parser` call preserves the invariant that
each language value of the extension map is a key of the parser map; and for
every extension whose lower-cased form the extension map sends to a
*non-empty* language name, `get_parser_by_extension` returns a parser.  (The
non-emptiness condition is forced: the method's truthiness test `if
language:` drops an empty language name, see the counterexample.) -/
theorem registerParser_invariant :
    (∀ (reg : ParserRegistry) (p : Parser),
      RegInvariant reg → RegInvariant (reg.registerParser p)) ∧
    (∀ (reg : ParserRegistry) (ext lang : String), RegInvariant reg →
      dictGet reg.extension_map (strLower ext) = some lang → lang ≠ "" →
      (reg.getParserByExtension ext).isSome = true) := by
  constructor
  · intro reg p hinv ext lang hget
    simp only [ParserRegistry.registerParser] at hget ⊢
    rcases dictGet_foldl_dictSet p.supported_extensions reg.extension_map
      p.language ext lang hget with hL | hold
    · subst hL
      rw [dictGet_dictSet, if_pos rfl]
      rfl
    · have hsome := hinv ext lang hold
      rw [dictGet_dictSet]
      by_cases hl : p.language = lang
      · rw [if_pos hl]; rfl
      · rw [if_neg hl]; exact hsome
  · intro reg ext lang hinv hget hne
    simp only [ParserRegistry.getParserByExtension, hget, if_neg hne]
    exact hinv (strLower ext) lang hget

/-- A placeholder tree for parsers whose `parse` result no claim inspects. -/
def dummyTree : UniversalSyntaxTree :=
  ⟨.mk "" .PROGRAM [] [] none none, [], "1.0"⟩

/-- A registry holding one parser registered under language `"python"` with
the Python extensions, as `main.py` effectively builds. -/
def pyReg : ParserRegistry :=
  ParserRegistry.empty.registerParser
    ⟨"python", [".py", ".pyw", ".pyi"], fun _ _ => dummyTree⟩

/-- Witness for C9 (amended) at concrete inputs. -/
theorem registerParser_invariant_witness :
    RegInvariant pyReg ∧ (pyReg.getParserByExtension ".PY").isSome = true := by
  have hempty : RegInvariant ParserRegistry.empty := by
    intro ext lang h
    simp [ParserRegistry.empty, dictGet] at h
  have hinv : RegInvariant pyReg :=
    registerParser_invariant.1 ParserRegistry.empty _ hempty
  refine ⟨hinv, registerParser_invariant.2 pyReg ".PY" "python" hinv ?_ ?_⟩
  · decide
  · decide

/-- A registry holding one parser whose `language` is the empty string. -/
def emptyLangReg : ParserRegistry :=
  ParserRegistry.empty.registerParser ⟨"", [".a"], fun _ _ => dummyTree⟩

/-- Counterexample to C9 as stated: after registering a parser with language
name `""` and extension `".a"`, the invariant holds and `".a"` (its own
lower-cased form) is present in the extension map, yet
`get_parser_by_extension(".a")` returns `None`: the method's `if language:`
truthiness test drops the empty language name. -/
theorem registry_extension_lookup_ce :
    RegInvariant emptyLangReg ∧
    dictGet emptyLangReg.extension_map (strLower ".a") = some "" ∧
    emptyLangReg.getParserByExtension ".a" = none := by
  refine ⟨?_, rfl, rfl⟩
  intro ext lang h
  simp only [emptyLangReg, ParserRegistry.registerParser, ParserRegistry.empty,
    List.foldl, dictSet, dictGet] at h ⊢
  by_cases ha : ".a" = ext
  · rw [if_pos ha] at h
    obtain rfl : lang = "" := (Option.some_injective _ h).symm
    rfl
  · rw [if_neg ha] at h
    cases h

/-! ## Language detection (`detect_language` of `base_parser.py`) -/

/-- Substring test, Python's `sub in s` on character lists. -/
def listContainsSub (hay nee : List Char) : Bool :=
  if nee.isPrefixOf hay then true
  else match hay with
    | [] => false
    | _ :: t => listContainsSub t nee

/-- Python `sub in s` on strings. -/
def strContains (s sub : String) : Bool := listContainsSub s.toList sub.toList

/-- A whitespace character as `str.strip()` removes it (ASCII range). -/
def isPyStripSpace (c : Char) : Bool :=
  c = ' ' || c = '\t' || c = '\n' || c = '\r' || c = '\x0b' || c = '\x0c'

/-- Python `str.strip()`. -/
def trimChars (cs : List Char) : List Char :=
  ((cs.dropWhile isPyStripSpace).reverse.dropWhile isPyStripSpace).reverse

/-- The keyword-presence heuristics of `detect_language` applied to
`source_code.lower().strip()`: Python, then JavaScript/TypeScript, then Java,
then C/C++, else undetected. -/
def detectByContent (source_code : String) : Option String :=
  let sl := trimChars (source_code.toList.map Char.toLower)
  if ["def ", "import ", "from ", "class ", "if __name__"].any
      (fun k => listContainsSub sl k.toList) then some "python"
  else if ["function ", "const ", "let ", "var ", "=>", "console.log"].any
      (fun k => listContainsSub sl k.toList) then some "javascript"
  else if ["public class", "public static void main", "import java"].any
      (fun k => listContainsSub sl k.toList) then some "java"
  else if ["#include", "int main(", "printf(", "cout <<"].any
      (fun k => listContainsSub sl k.toList) then
    if listContainsSub sl "cout".toList then some "cpp" else some "c"
  else none

/-- `detect_language(source_code, file_path)` of `base_parser.py`: extension
lookup against the registry first, content heuristics otherwise; never
raises. -/
def detect_language (reg : ParserRegistry) (source_code : String)
    (file_path : Option String) : Option String :=
  match truthyStr file_path with
  | some fp =>
      match dictGet reg.extension_map (strLower (splitextExt fp)) with
      | some lang => some lang
      | none => detectByContent source_code
  | none => detectByContent source_code

/-! ## The JavaScript tokenizer (`javascript_parser.py`, `_tokenize`)

Each regex of `token_patterns` is embedded as a matcher
`Option Char → List Char → Option Nat`: given the character before the scan
position (for the `\b` boundary of the keyword patterns, `re.match(pattern,
line, column)` examines `line[column-1]`) and the rest of the line from the
scan position, it returns the length of the match at that position, `none`
when the pattern does not match there.  The matchers are deterministic
transcriptions of the individual regexes; `first` below realizes the
first-rule-wins scan of `_tokenize`. -/

/-- Regex `\w` on ASCII: letters, digits, underscore. -/
def isWordChar (c : Char) : Bool := c.isAlphanum || c = '_'

/-- Identifier start `[a-zA-Z_$]`. -/
def isIdentStart (c : Char) : Bool := c.isAlpha || c = '_' || c = '$'

/-- Identifier continuation `[a-zA-Z0-9_$]`. -/
def isIdentChar (c : Char) : Bool := c.isAlphanum || c = '_' || c = '$'

/-- Regex `\s` on ASCII. -/
def isSpaceRe (c : Char) : Bool :=
  c = ' ' || c = '\t' || c = '\n' || c = '\r' || c = '\x0b' || c = '\x0c'

/-- `//.*`: the rest of the line. -/
def matchCommentSingle : List Char → Option Nat
  | '/' :: '/' :: t => some (2 + t.length)
  | _ => none

/-- Characters before the earliest `*/` (the non-greedy `[\s\S]*?`). -/
def findCommentClose : List Char → Option Nat
  | '*' :: '/' :: _ => some 0
  | _ :: t => (findCommentClose t).map (· + 1)
  | [] => none

/-- `/\*[\s\S]*?\*/` within one line. -/
def matchCommentMulti : List Char → Option Nat
  | '/' :: '*' :: t => (findCommentClose t).map (fun k => 2 + k + 2)
  | _ => none

/-- After an opening quote `q`: `(?:[^q\\]|\\.)*q` — the star cannot pass an
unescaped quote, so the match ends at the first unescaped `q`. -/
def strBody (q : Char) : List Char → Option Nat
  | [] => none
  | '\\' :: rest =>
      match rest with
      | [] => none
      | _ :: t => (strBody q t).map (· + 2)
  | c :: t => if c = q then some 1 else (strBody q t).map (· + 1)

/-- A quoted string literal with quote character `q`. -/
def matchStringLit (q : Char) : List Char → Option Nat
  | c :: t => if c = q then (strBody q t).map (· + 1) else none
  | [] => none

/-- Length of the maximal run satisfying `p`. -/
def countWhile (p : Char → Bool) : List Char → Nat
  | [] => 0
  | c :: t => if p c then countWhile p t + 1 else 0

/-- `\d+\.?\d*`: leading digits `\d+`, then an optional dot with trailing
digits.  (`numLen` is the length of the leading digit run.) -/
def numLen (rest : List Char) : Nat := countWhile Char.isDigit rest

def matchNumber (rest : List Char) : Option Nat :=
  if numLen rest = 0 then none
  else match rest.drop (numLen rest) with
    | '.' :: t2 => some (numLen rest + 1 + countWhile Char.isDigit t2)
    | _ => some (numLen rest)

/-- `\bkw\b` for an alphabetic keyword `kw`, at the scan position: word
boundary before (none or a non-word character precedes), the keyword itself,
word boundary after. -/
def boundaryBefore : Option Char → Bool
  | none => true
  | some c => !(isWordChar c)

def boundaryAfter : List Char → Bool
  | [] => true
  | c :: _ => !(isWordChar c)

def matchKeyword (kw : List Char) (prev : Option Char) (rest : List Char) :
    Option Nat :=
  if boundaryBefore prev && kw.isPrefixOf rest && boundaryAfter (rest.drop kw.length)
  then some kw.length else none

/-- A fixed literal token such as `=>` or `+=`. -/
def matchTokenLit (lit : List Char) (rest : List Char) : Option Nat :=
  if lit.isPrefixOf rest then some lit.length else none

/-- A single fixed character token. -/
def matchTokenChar (c : Char) : List Char → Option Nat
  | x :: _ => if x = c then some 1 else none
  | [] => none

/-- Regex alternation `a|b` at the position: the left branch first. -/
def matchAlt (a b : Option Nat) : Option Nat :=
  match a with
  | some n => some n
  | none => b

/-- The backquote character of `STRING_TEMPLATE`. -/
def backquoteChar : Char := Char.ofNat 96

/-- `[a-zA-Z_$][a-zA-Z0-9_$]*`. -/
def matchIdentTok : List Char → Option Nat
  | c :: t => if isIdentStart c then some (1 + countWhile isIdentChar t) else none
  | [] => none

/-- `\s+`. -/
def matchSpacesTok (r : List Char) : Option Nat :=
  if countWhile isSpaceRe r = 0 then none else some (countWhile isSpaceRe r)

/-- `token_patterns` of `JavaScriptParser.__init__`, in the source's exact
order (this order is what C5 is about). -/
def tokenPatterns : List (String × (Option Char → List Char → Option Nat)) :=
  [("COMMENT_SINGLE", fun _ r => matchCommentSingle r),
   ("COMMENT_MULTI", fun _ r => matchCommentMulti r),
   ("STRING_DOUBLE", fun _ r => matchStringLit '"' r),
   ("STRING_SINGLE", fun _ r => matchStringLit '\'' r),
   ("STRING_TEMPLATE", fun _ r => matchStringLit backquoteChar r),
   ("NUMBER", fun _ r => matchNumber r),
   ("FUNCTION", fun p r => matchKeyword "function".toList p r),
   ("CONST", fun p r => matchKeyword "const".toList p r),
   ("LET", fun p r => matchKeyword "let".toList p r),
   ("VAR", fun p r => matchKeyword "var".toList p r),
   ("IF", fun p r => matchKeyword "if".toList p r),
   ("ELSE", fun p r => matchKeyword "else".toList p r),
   ("FOR", fun p r => matchKeyword "for".toList p r),
   ("WHILE", fun p r => matchKeyword "while".toList p r),
   ("RETURN", fun p r => matchKeyword "return".toList p r),
   ("BREAK", fun p r => matchKeyword "break".toList p r),
   ("CONTINUE", fun p r => matchKeyword "continue".toList p r),
   ("CLASS", fun p r => matchKeyword "class".toList p r),
   ("IMPORT", fun p r => matchKeyword "import".toList p r),
   ("EXPORT", fun p r => matchKeyword "export".toList p r),
   ("FROM", fun p r => matchKeyword "from".toList p r),
   ("TRUE", fun p r => matchKeyword "true".toList p r),
   ("FALSE", fun p r => matchKeyword "false".toList p r),
   ("NULL", fun p r => matchKeyword "null".toList p r),
   ("UNDEFINED", fun p r => matchKeyword "undefined".toList p r),
   ("ARROW", fun _ r => matchTokenLit "=>".toList r),
   ("ASSIGN", fun _ r => matchTokenChar '=' r),
   ("PLUS_ASSIGN", fun _ r => matchTokenLit "+=".toList r),
   ("MINUS_ASSIGN", fun _ r => matchTokenLit "-=".toList r),
   ("MULTIPLY_ASSIGN", fun _ r => matchTokenLit "*=".toList r),
   ("DIVIDE_ASSIGN", fun _ r => matchTokenLit "/=".toList r),
   ("EQUALITY", fun _ r =>
      matchAlt (matchTokenLit "===".toList r) (matchTokenLit "==".toList r)),
   ("INEQUALITY", fun _ r =>
      matchAlt (matchTokenLit "!==".toList r) (matchTokenLit "!=".toList r)),
   ("LESS_EQUAL", fun _ r => matchTokenLit "<=".toList r),
   ("GREATER_EQUAL", fun _ r => matchTokenLit ">=".toList r),
   ("LESS", fun _ r => matchTokenChar '<' r),
   ("GREATER", fun _ r => matchTokenChar '>' r),
   ("PLUS", fun _ r => matchTokenChar '+' r),
   ("MINUS", fun _ r => matchTokenChar '-' r),
   ("MULTIPLY", fun _ r => matchTokenChar '*' r),
   ("DIVIDE", fun _ r => matchTokenChar '/' r),
   ("MODULO", fun _ r => matchTokenChar '%' r),
   ("AND", fun _ r => matchTokenLit "&&".toList r),
   ("OR", fun _ r => matchTokenLit "||".toList r),
   ("NOT", fun _ r => matchTokenChar '!' r),
   ("SEMICOLON", fun _ r => matchTokenChar ';' r),
   ("COMMA", fun _ r => matchTokenChar ',' r),
   ("DOT", fun _ r => matchTokenChar '.' r),
   ("LPAREN", fun _ r => matchTokenChar '(' r),
   ("RPAREN", fun _ r => matchTokenChar ')' r),
   ("LBRACE", fun _ r => matchTokenChar '{' r),
   ("RBRACE", fun _ r => matchTokenChar '}' r),
   ("LBRACKET", fun _ r => matchTokenChar '[' r),
   ("RBRACKET", fun _ r => matchTokenChar ']' r),
   ("IDENTIFIER", fun _ r => matchIdentTok r),
   ("WHITESPACE", fun _ r => matchSpacesTok r),
   ("NEWLINE", fun _ r => matchTokenChar '\n' r)]

/-- A lexical token (`Token` of `javascript_parser.py`). -/
structure Token where
  type : String
  value : String
  line : Nat
  column : Nat
deriving DecidableEq, Repr

/-- Try the pattern list in order; the first pattern that matches wins. -/
def tryPatterns :
    List (String × (Option Char → List Char → Option Nat)) →
    Option Char → List Char → Option (String × Nat)
  | [], _, _ => none
  | q :: ps, p, r =>
      match q.2 p r with
      | some k => some (q.1, k)
      | none => tryPatterns ps p r

/-- The character before the scan position, when any. -/
def prevCharAt (line : List Char) (col : Nat) : Option Char :=
  if col = 0 then none else line.get? (col - 1)

/-- The first pattern of `token_patterns` matching at column `col` of `line`,
with the length of its match: one iteration of the inner `for` of
`_tokenize`. -/
def firstMatch (line : List Char) (col : Nat) : Option (String × Nat) :=
  tryPatterns tokenPatterns (prevCharAt line col) (line.drop col)

/-- The token types `_tokenize` drops (`WHITESPACE`, comments). -/
def isDiscarded (ty : String) : Bool :=
  ty = "WHITESPACE" || ty = "COMMENT_SINGLE" || ty = "COMMENT_MULTI"

/-- The `while column < len(line)` scan of `_tokenize`, fuel-indexed so that
the definition is structurally total; `tokenizer_forward_progress` below
shows the scan is fuel-independent from `line.length - col` up, which is the
termination of the source's loop. -/
def scanGo (line : List Char) (lineNum : Nat) : Nat → Nat → List Token
  | 0, _ => []
  | fuel + 1, col =>
      if col < line.length then
        match firstMatch line col with
        | some (ty, len) =>
            if isDiscarded ty then scanGo line lineNum fuel (col + len)
            else ⟨ty, String.mk ((line.drop col).take len), lineNum, col⟩ ::
              scanGo line lineNum fuel (col + len)
        | none => scanGo line lineNum fuel (col + 1)
      else []

/-- Scan one line from column 0. -/
def tokenizeLine (line : List Char) (lineNum : Nat) : List Token :=
  scanGo line lineNum line.length 0

/-- `source_code.split('\n')`. -/
def splitLines : List Char → List (List Char)
  | [] => [[]]
  | c :: rest =>
      if c = '\n' then [] :: splitLines rest
      else match splitLines rest with
        | [] => [[c]]
        | l :: ls => (c :: l) :: ls

/-- Scan the lines, numbering from `n`. -/
def tokenizeFrom : List (List Char) → Nat → List Token
  | [], _ => []
  | l :: ls, n => tokenizeLine l n ++ tokenizeFrom ls (n + 1)

/-- `JavaScriptParser._tokenize`: lines numbered from 1, each scanned left to
right by the first-match-wins rule; whitespace and comments dropped;
unmatched characters skipped. -/
def tokenize (source_code : String) : List Token :=
  tokenizeFrom (splitLines source_code.toList) 1

/-! ## Forward progress of the tokenizer (C4) -/

/-- A matcher never reports an empty match. -/
def MatcherPos (m : Option Char → List Char → Option Nat) : Prop :=
  ∀ p r n, m p r = some n → 0 < n

theorem matchCommentSingle_pos (r : List Char) (n : Nat)
    (h : matchCommentSingle r = some n) : 0 < n := by
  unfold matchCommentSingle at h
  split at h
  · obtain rfl := Option.some_injective _ h
    omega
  · cases h

theorem matchCommentMulti_pos (r : List Char) (n : Nat)
    (h : matchCommentMulti r = some n) : 0 < n := by
  unfold matchCommentMulti at h
  split at h
  · obtain ⟨k, -, rfl⟩ := Option.map_eq_some'.mp h
    omega
  · cases h

theorem matchStringLit_pos (q : Char) (r : List Char) (n : Nat)
    (h : matchStringLit q r = some n) : 0 < n := by
  unfold matchStringLit at h
  split at h
  · split at h
    · obtain ⟨k, -, rfl⟩ := Option.map_eq_some'.mp h
      omega
    · cases h
  · cases h

theorem matchNumber_pos (r : List Char) (n : Nat)
    (h : matchNumber r = some n) : 0 < n := by
  simp only [matchNumber] at h
  split at h
  · cases h
  · split at h <;> (obtain rfl := Option.some_injective _ h; omega)

theorem matchKeyword_len (kw : List Char) (p : Option Char) (r : List Char)
    (n : Nat) (h : matchKeyword kw p r = some n) : n = kw.length := by
  simp only [matchKeyword] at h
  split at h
  · exact (Option.some_injective _ h).symm
  · cases h

theorem matchKeyword_pos (kw : List Char) (hk : kw ≠ []) :
    MatcherPos (fun p r => matchKeyword kw p r) := by
  intro p r n h
  simp only at h
  rw [matchKeyword_len kw p r n h]
  exact List.length_pos.mpr hk

theorem matchTokenLit_pos (lit : List Char) (hl : lit ≠ []) :
    MatcherPos (fun _ r => matchTokenLit lit r) := by
  intro _ r n h
  simp only [matchTokenLit] at h
  split at h
  · obtain rfl := Option.some_injective _ h
    exact List.length_pos.mpr hl
  · cases h

theorem matchTokenChar_pos (c : Char) :
    MatcherPos (fun _ r => matchTokenChar c r) := by
  intro _ r n h
  simp only [matchTokenChar] at h
  split at h
  · split at h
    · obtain rfl := Option.some_injective _ h
      omega
    · cases h
  · cases h

theorem matchAlt_pos (f g : List Char → Option Nat)
    (hf : MatcherPos (fun _ r => f r)) (hg : MatcherPos (fun _ r => g r)) :
    MatcherPos (fun _ r => matchAlt (f r) (g r)) := by
  intro p r n h
  simp only [matchAlt] at h
  split at h
  · next k hk =>
      have hkn : k = n := Option.some_injective _ h
      exact hf p r n (hkn ▸ hk)
  · exact hg p r n h

theorem matchIdentTok_pos (r : List Char) (n : Nat)
    (h : matchIdentTok r = some n) : 0 < n := by
  simp only [matchIdentTok] at h
  split at h
  · split at h
    · obtain rfl := Option.some_injective _ h
      omega
    · cases h
  · cases h

theorem matchSpacesTok_pos (r : List Char) (n : Nat)
    (h : matchSpacesTok r = some n) : 0 < n := by
  simp only [matchSpacesTok] at h
  split at h
  · cases h
  · obtain rfl := Option.some_injective _ h
    omega

theorem tokenPatterns_pos : ∀ q ∈ tokenPatterns, MatcherPos q.2 := by
  intro q hq
  fin_cases hq <;>
    first
    | exact fun p r n h => matchCommentSingle_pos r n h
    | exact fun p r n h => matchCommentMulti_pos r n h
    | exact fun p r n h => matchStringLit_pos _ r n h
    | exact fun p r n h => matchNumber_pos r n h
    | exact fun p r n h => matchIdentTok_pos r n h
    | exact fun p r n h => matchSpacesTok_pos r n h
    | exact matchTokenChar_pos _
    | (exact matchKeyword_pos _ (by decide))
    | (exact matchTokenLit_pos _ (by decide))
    | (exact matchAlt_pos _ _ (matchTokenLit_pos _ (by decide))
        (matchTokenLit_pos _ (by decide)))

theorem tryPatterns_pos
    (ps : List (String × (Option Char → List Char → Option Nat)))
    (hps : ∀ q ∈ ps, MatcherPos q.2) (p : Option Char) (r : List Char)
    (ty : String) (n : Nat) (h : tryPatterns ps p r = some (ty, n)) : 0 < n := by
  induction ps with
  | nil => cases h
  | cons q qs ih =>
      unfold tryPatterns at h
      split at h
      · next k hk =>
          have hkn : k = n := congrArg Prod.snd (Option.some_injective _ h)
          exact hps q (List.mem_cons_self q qs) p r n (hkn ▸ hk)
      · exact ih (fun q' hq' => hps q' (List.mem_cons_of_mem q hq')) h

theorem firstMatch_pos (line : List Char) (col : Nat) (ty : String) (n : Nat)
    (h : firstMatch line col = some (ty, n)) : 0 < n :=
  tryPatterns_pos tokenPatterns tokenPatterns_pos (prevCharAt line col)
    (line.drop col) ty n h

theorem scanGo_out (line : List Char) (lineNum : Nat) (col : Nat)
    (h : ¬ col < line.length) : ∀ fuel, scanGo line lineNum fuel col = [] := by
  intro fuel
  cases fuel with
  | zero => rfl
  | succ f => simp [scanGo, h]

/-- C4. Forward progress and totality of the tokenizer scan: (1) every
pattern match at a scan position has positive length, so a match never
causes zero net advancement; (2) when no pattern matches, the scan emits no
token and continues from the next column — the unrecognized character is
silently discarded rather than raising; (3) the fuel-indexed scan is stable
from `line.length - col` steps of fuel on: the source's `while` loop over a
finite line terminates, within one step per remaining character. -/
theorem tokenizer_forward_progress :
    (∀ (line : List Char) (col : Nat) (ty : String) (len : Nat),
      firstMatch line col = some (ty, len) → 0 < len) ∧
    (∀ (line : List Char) (lineNum fuel col : Nat), col < line.length →
      firstMatch line col = none →
      scanGo line lineNum (fuel + 1) col = scanGo line lineNum fuel (col + 1)) ∧
    (∀ (line : List Char) (lineNum f1 f2 col : Nat),
      line.length - col ≤ f1 → line.length - col ≤ f2 →
      scanGo line lineNum f1 col = scanGo line lineNum f2 col) := by
  refine ⟨firstMatch_pos, fun line lineNum fuel col hc hm => ?_, ?_⟩
  · simp [scanGo, hc, hm]
  · intro line lineNum f1
    induction f1 with
    | zero =>
        intro f2 col h1 h2
        have hc : ¬ col < line.length := by omega
        rw [scanGo_out line lineNum col hc, scanGo_out line lineNum col hc]
    | succ f1' ih =>
        intro f2 col h1 h2
        by_cases hc : col < line.length
        · obtain ⟨f2', rfl⟩ : ∃ k, f2 = k + 1 := ⟨f2 - 1, by omega⟩
          cases hm : firstMatch line col with
          | some p =>
              obtain ⟨ty, len⟩ := p
              have hlen : 0 < len := firstMatch_pos line col ty len hm
              have hrec : scanGo line lineNum f1' (col + len) =
                  scanGo line lineNum f2' (col + len) :=
                ih f2' (col + len) (by omega) (by omega)
              simp only [scanGo, if_pos hc, hm, hrec]
          | none =>
              have hrec : scanGo line lineNum f1' (col + 1) =
                  scanGo line lineNum f2' (col + 1) :=
                ih f2' (col + 1) (by omega) (by omega)
              simp only [scanGo, if_pos hc, hm, hrec]
        · rw [scanGo_out line lineNum col hc, scanGo_out line lineNum col hc]

/-- Witness for C4 at concrete inputs: at `"x"` the identifier pattern
matches with positive length; at `"&"` (no rule matches a lone ampersand) the
scan skips one character; the scan of `"x"` is fuel-stable. -/
theorem tokenizer_forward_progress_witness :
    (0 : Nat) < 1 ∧
    scanGo "&".toList 7 3 0 = scanGo "&".toList 7 2 1 ∧
    scanGo "x".toList 1 5 0 = scanGo "x".toList 1 9 0 := by
  refine ⟨tokenizer_forward_progress.1 "x".toList 0 "IDENTIFIER" 1 rfl, ?_, ?_⟩
  · exact tokenizer_forward_progress.2.1 "&".toList 7 2 0 (by decide) rfl
  · exact tokenizer_forward_progress.2.2 "x".toList 1 5 9 0 (by decide) (by decide)

/-! ## Rule order in the pattern list (C5) -/

/-- The (type, value) projection of a token list. -/
def tokensTV (ts : List Token) : List (String × String) :=
  ts.map (fun t => (t.type, t.value))

/-- Counterexample to C5 as stated: the single-character `ASSIGN` rule `=`
precedes the `EQUALITY` rule `===|==` in `token_patterns`, so the input
`===` lexes as three `ASSIGN` tokens, not as one multi-character operator
token. -/
theorem tokenize_equality_ce :
    tokensTV (tokenize "===") =
      [("ASSIGN", "="), ("ASSIGN", "="), ("ASSIGN", "=")] ∧
    (tokenize "===").length ≠ 1 := by
  constructor
  · rfl
  · decide

/-- C5 (amended).  In `token_patterns` the keyword literals do come before
the generic identifier pattern — each keyword lexes as its keyword token and
an identifier extending a keyword lexes as one identifier — and `=>` and
`&&` lex as single multi-character operator tokens; but the single-character
`=` rule precedes the `===|==` rule, so `===` lexes as three `=` tokens
rather than one. -/
theorem tokenize_rule_order :
    tokensTV (tokenize "=>") = [("ARROW", "=>")] ∧
    tokensTV (tokenize "&&") = [("AND", "&&")] ∧
    tokensTV (tokenize "===") =
      [("ASSIGN", "="), ("ASSIGN", "="), ("ASSIGN", "=")] ∧
    tokensTV (tokenize "function") = [("FUNCTION", "function")] ∧
    tokensTV (tokenize "const") = [("CONST", "const")] ∧
    tokensTV (tokenize "let") = [("LET", "let")] ∧
    tokensTV (tokenize "var") = [("VAR", "var")] ∧
    tokensTV (tokenize "if") = [("IF", "if")] ∧
    tokensTV (tokenize "else") = [("ELSE", "else")] ∧
    tokensTV (tokenize "for") = [("FOR", "for")] ∧
    tokensTV (tokenize "while") = [("WHILE", "while")] ∧
    tokensTV (tokenize "return") = [("RETURN", "return")] ∧
    tokensTV (tokenize "break") = [("BREAK", "break")] ∧
    tokensTV (tokenize "continue") = [("CONTINUE", "continue")] ∧
    tokensTV (tokenize "class") = [("CLASS", "class")] ∧
    tokensTV (tokenize "import") = [("IMPORT", "import")] ∧
    tokensTV (tokenize "export") = [("EXPORT", "export")] ∧
    tokensTV (tokenize "from") = [("FROM", "from")] ∧
    tokensTV (tokenize "true") = [("TRUE", "true")] ∧
    tokensTV (tokenize "false") = [("FALSE", "false")] ∧
    tokensTV (tokenize "null") = [("NULL", "null")] ∧
    tokensTV (tokenize "undefined") = [("UNDEFINED", "undefined")] ∧
    tokensTV (tokenize "functions") = [("IDENTIFIER", "functions")] := by
  repeat' constructor

/-! ## The JavaScript statement parser (`javascript_parser.py`)

The handlers below are one-to-one transcriptions of the `_parse_*` methods.
Nodes are built with the placeholder id `""`; the `uuid.uuid4()` ids of the
source are attached afterwards by `assignIds` from an explicit supply, which
models the id stream without changing anything else (ids influence no
control flow in the source). -/

/-- In-bounds token access `tokens[i]` (call sites are guarded as in the
source; the default is never read at a guarded site). -/
def tokGetD (ts : List Token) (i : Nat) : Token :=
  (ts.get? i).getD ⟨"", "", 0, 0⟩

/-- `_set_source_range`: start of the first token to end of the last token
(column plus value length). -/
def setSourceRange (n : ASTNode) (stok etok : Token) (fp : Option String) :
    ASTNode :=
  n.with_source_range (some
    ⟨⟨Int.ofNat stok.line, Int.ofNat stok.column, fp⟩,
     ⟨Int.ofNat etok.line, Int.ofNat (etok.column + etok.value.length), fp⟩⟩)

/-- A fresh node of the given type tagged `original_language='javascript'`. -/
def jsNode (t : NodeType) : ASTNode := .mk "" t [] [] none (some "javascript")

/-- Python `s[1:-1]` (strip the quotes of a string token). -/
def stripEnds (s : String) : String := String.mk ((s.toList.drop 1).dropLast)

/-- Python `int(s)` on a digit string. -/
def intOfDigits (s : String) : Int :=
  Int.ofNat (s.toList.foldl (fun a c => a * 10 + (c.toNat - 48)) 0)

/-- `_parse_expression`: literals (strings, numbers, booleans, null,
undefined) and identifiers, one token each; anything else yields no node and
consumes one token slot. -/
def parseExpression (ts : List Token) (start : Nat) (fp : Option String) :
    Option ASTNode × Nat :=
  if start < ts.length then
    let token := tokGetD ts start
    if token.type = "STRING_DOUBLE" ∨ token.type = "STRING_SINGLE" ∨
        token.type = "STRING_TEMPLATE" then
      let node := ((jsNode .LITERAL).set_attribute "value"
          (vStr (stripEnds token.value))).set_attribute "data_type"
          (vStr DataType.STRING.value)
      (some (setSourceRange node token token fp), 1)
    else if token.type = "NUMBER" then
      let node :=
        if token.value.toList.contains '.' then
          ((jsNode .LITERAL).set_attribute "value"
            (vFloat token.value)).set_attribute "data_type"
            (vStr DataType.FLOAT.value)
        else
          ((jsNode .LITERAL).set_attribute "value"
            (vInt (intOfDigits token.value))).set_attribute "data_type"
            (vStr DataType.INTEGER.value)
      (some (setSourceRange node token token fp), 1)
    else if token.type = "TRUE" ∨ token.type = "FALSE" then
      let node := ((jsNode .LITERAL).set_attribute "value"
          (vBool (token.value = "true"))).set_attribute "data_type"
          (vStr DataType.BOOLEAN.value)
      (some (setSourceRange node token token fp), 1)
    else if token.type = "NULL" then
      let node := ((jsNode .LITERAL).set_attribute "value"
          vNone).set_attribute "data_type" (vStr DataType.NULL.value)
      (some (setSourceRange node token token fp), 1)
    else if token.type = "UNDEFINED" then
      let node := ((jsNode .LITERAL).set_attribute "value"
          vNone).set_attribute "data_type" (vStr DataType.UNDEFINED.value)
      (some (setSourceRange node token token fp), 1)
    else if token.type = "IDENTIFIER" then
      let node := (jsNode .IDENTIFIER).set_attribute "name" (vStr token.value)
      (some (setSourceRange node token token fp), 1)
    else (none, 1)
  else (none, 0)

/-- The parameter-collection loop of `_parse_function_declaration`:
`while i < len(tokens) and tokens[i].type != 'RPAREN'`, collecting
identifier values.  Fuel-indexed; each step advances one token, so
`ts.length` fuel never runs out. -/
def scanParams (ts : List Token) : Nat → Nat → List String × Nat
  | 0, i => ([], i)
  | fuel + 1, i =>
      if i < ts.length ∧ (tokGetD ts i).type ≠ "RPAREN" then
        let r := scanParams ts fuel (i + 1)
        (if (tokGetD ts i).type = "IDENTIFIER" then (tokGetD ts i).value :: r.1
         else r.1, r.2)
      else ([], i)

/-- The brace-matching loop of `_parse_function_declaration`:
`while i < len(tokens) and brace_count > 0`, adjusting the count at each
`LBRACE`/`RBRACE` and advancing one token. -/
def braceScan (ts : List Token) : Nat → Nat → Nat → Nat
  | 0, i, _ => i
  | fuel + 1, i, count =>
      if i < ts.length ∧ count > 0 then
        braceScan ts fuel (i + 1)
          (if (tokGetD ts i).type = "LBRACE" then count + 1
           else if (tokGetD ts i).type = "RBRACE" then count - 1 else count)
      else i

/-- `while i < len(tokens) and tokens[i].type != stop: i += 1`. -/
def skipUntilTy (ts : List Token) (stop : String) : Nat → Nat → Nat
  | 0, i => i
  | fuel + 1, i =>
      if i < ts.length ∧ (tokGetD ts i).type ≠ stop then
        skipUntilTy ts stop fuel (i + 1)
      else i

/-- `_parse_function_declaration`: optional name, parameter list up to the
closing parenthesis, opaque block body found by brace matching. -/
def parseFunctionDeclaration (ts : List Token) (start : Nat)
    (fp : Option String) : ASTNode × Nat :=
  let node0 := jsNode .FUNCTION_DECLARATION
  let i1 := start + 1
  let step1 : ASTNode × Nat :=
    if i1 < ts.length ∧ (tokGetD ts i1).type = "IDENTIFIER" then
      (node0.set_attribute "name" (vStr (tokGetD ts i1).value), i1 + 1)
    else (node0, i1)
  let step2 : ASTNode × Nat :=
    if step1.2 < ts.length ∧ (tokGetD ts step1.2).type = "LPAREN" then
      let r := scanParams ts ts.length (step1.2 + 1)
      let node2 := step1.1.set_attribute "parameters" (vList (r.1.map vStr))
      (node2, if r.2 < ts.length ∧ (tokGetD ts r.2).type = "RPAREN"
        then r.2 + 1 else r.2)
    else step1
  let step3 : ASTNode × Nat :=
    if step2.2 < ts.length ∧ (tokGetD ts step2.2).type = "LBRACE" then
      (step2.1.add_child (jsNode .BLOCK_STATEMENT),
       braceScan ts ts.length (step2.2 + 1) 1)
    else step2
  (setSourceRange step3.1 (tokGetD ts start)
    (tokGetD ts (min (step3.2 - 1) (ts.length - 1))) fp, step3.2 - start)

/-- `_parse_variable_declaration`: binding keyword as `kind`, optional name,
optional `=`-initializer parsed by `_parse_expression`, optional semicolon.
(When `_parse_expression` yields no node the source appends Python `None` to
`children` — a value outside the tree type, unserializable downstream — and
still advances; the embedding advances identically and omits the `None`
child.) -/
def parseVariableDeclaration (ts : List Token) (start : Nat)
    (fp : Option String) : ASTNode × Nat :=
  let node0 := (jsNode .VARIABLE_DECLARATION).set_attribute "kind"
    (vStr (tokGetD ts start).value)
  let i1 := start + 1
  let step1 : ASTNode × Nat :=
    if i1 < ts.length ∧ (tokGetD ts i1).type = "IDENTIFIER" then
      (node0.set_attribute "name" (vStr (tokGetD ts i1).value), i1 + 1)
    else (node0, i1)
  let step2 : ASTNode × Nat :=
    if step1.2 < ts.length ∧ (tokGetD ts step1.2).type = "ASSIGN" then
      let i2 := step1.2 + 1
      if i2 < ts.length then
        let r := parseExpression ts i2 fp
        (match r.1 with
         | some v => step1.1.add_child v
         | none => step1.1, i2 + r.2)
      else (step1.1, i2)
    else step1
  let i3 := if step2.2 < ts.length ∧ (tokGetD ts step2.2).type = "SEMICOLON"
    then step2.2 + 1 else step2.2
  (setSourceRange step2.1 (tokGetD ts start)
    (tokGetD ts (min (i3 - 1) (ts.length - 1))) fp, i3 - start)

/-- The shared shape of `_parse_if_statement`, `_parse_for_statement` and
`_parse_while_statement`: skip to the first `RBRACE` (inclusive) and return
a header-only node. -/
def parseSkipToBrace (t : NodeType) (ts : List Token) (start : Nat)
    (fp : Option String) : ASTNode × Nat :=
  let j := skipUntilTy ts "RBRACE" ts.length (start + 1)
  let i := if j < ts.length then j + 1 else j
  (setSourceRange (jsNode t) (tokGetD ts start)
    (tokGetD ts (min (i - 1) (ts.length - 1))) fp, i - start)

/-- `_parse_return_statement`: optional returned expression, optional
semicolon. -/
def parseReturnStatement (ts : List Token) (start : Nat)
    (fp : Option String) : ASTNode × Nat :=
  let node0 := jsNode .RETURN_STATEMENT
  let i1 := start + 1
  let step1 : ASTNode × Nat :=
    if i1 < ts.length ∧ (tokGetD ts i1).type ≠ "SEMICOLON" then
      let r := parseExpression ts i1 fp
      match r.1 with
      | some e => (node0.add_child e, i1 + r.2)
      | none => (node0, i1)
    else (node0, i1)
  let i2 := if step1.2 < ts.length ∧ (tokGetD ts step1.2).type = "SEMICOLON"
    then step1.2 + 1 else step1.2
  (setSourceRange step1.1 (tokGetD ts start)
    (tokGetD ts (min (i2 - 1) (ts.length - 1))) fp, i2 - start)

/-- `_parse_break_statement` / `_parse_continue_statement`: the keyword and
an optional semicolon. -/
def parseBareStatement (t : NodeType) (ts : List Token) (start : Nat)
    (fp : Option String) : ASTNode × Nat :=
  let i1 := start + 1
  let i2 := if i1 < ts.length ∧ (tokGetD ts i1).type = "SEMICOLON"
    then i1 + 1 else i1
  (setSourceRange (jsNode t) (tokGetD ts start)
    (tokGetD ts (min (i2 - 1) (ts.length - 1))) fp, i2 - start)

/-- `_parse_class_declaration`: optional name, then skip to the first
`RBRACE` (inclusive). -/
def parseClassDeclaration (ts : List Token) (start : Nat)
    (fp : Option String) : ASTNode × Nat :=
  let node0 := jsNode .CLASS_DECLARATION
  let i1 := start + 1
  let step1 : ASTNode × Nat :=
    if i1 < ts.length ∧ (tokGetD ts i1).type = "IDENTIFIER" then
      (node0.set_attribute "name" (vStr (tokGetD ts i1).value), i1 + 1)
    else (node0, i1)
  let j := skipUntilTy ts "RBRACE" ts.length step1.2
  let i := if j < ts.length then j + 1 else j
  (setSourceRange step1.1 (tokGetD ts start)
    (tokGetD ts (min (i - 1) (ts.length - 1))) fp, i - start)

/-- `_parse_import_export`: the keyword as the `type` attribute, then skip
to the first semicolon (inclusive). -/
def parseImportExport (ts : List Token) (start : Nat)
    (fp : Option String) : ASTNode × Nat :=
  let node0 := (jsNode .IMPORT_DECLARATION).set_attribute "type"
    (vStr (tokGetD ts start).value)
  let j := skipUntilTy ts "SEMICOLON" ts.length (start + 1)
  let i := if j < ts.length then j + 1 else j
  (setSourceRange node0 (tokGetD ts start)
    (tokGetD ts (min (i - 1) (ts.length - 1))) fp, i - start)

/-- `_parse_expression_statement`. -/
def parseExpressionStatement (ts : List Token) (start : Nat)
    (fp : Option String) : Option ASTNode × Nat :=
  let r := parseExpression ts start fp
  match r.1 with
  | some e => (some ((jsNode .EXPRESSION_STATEMENT).add_child e), r.2)
  | none => (none, 1)

/-- `_parse_statement`: one-token-lookahead dispatch on the token type. -/
def parseStatement (ts : List Token) (start : Nat) (fp : Option String) :
    Option ASTNode × Nat :=
  if start < ts.length then
    let t := tokGetD ts start
    if t.type = "FUNCTION" then
      let r := parseFunctionDeclaration ts start fp
      (some r.1, r.2)
    else if t.type = "CONST" ∨ t.type = "LET" ∨ t.type = "VAR" then
      let r := parseVariableDeclaration ts start fp
      (some r.1, r.2)
    else if t.type = "IF" then
      let r := parseSkipToBrace .IF_STATEMENT ts start fp
      (some r.1, r.2)
    else if t.type = "FOR" then
      let r := parseSkipToBrace .FOR_STATEMENT ts start fp
      (some r.1, r.2)
    else if t.type = "WHILE" then
      let r := parseSkipToBrace .WHILE_STATEMENT ts start fp
      (some r.1, r.2)
    else if t.type = "RETURN" then
      let r := parseReturnStatement ts start fp
      (some r.1, r.2)
    else if t.type = "BREAK" then
      let r := parseBareStatement .BREAK_STATEMENT ts start fp
      (some r.1, r.2)
    else if t.type = "CONTINUE" then
      let r := parseBareStatement .CONTINUE_STATEMENT ts start fp
      (some r.1, r.2)
    else if t.type = "CLASS" then
      let r := parseClassDeclaration ts start fp
      (some r.1, r.2)
    else if t.type = "IMPORT" ∨ t.type = "EXPORT" then
      let r := parseImportExport ts start fp
      (some r.1, r.2)
    else parseExpressionStatement ts start fp
  else (none, 0)

/-- The `while i < len(tokens)` loop of `_parse_tokens`: append each parsed
node to the program root, advance by `consumed if consumed > 0 else 1`.
Fuel-indexed; every iteration advances at least one token. -/
def parseLoop (ts : List Token) (fp : Option String) :
    Nat → Nat → ASTNode → ASTNode
  | 0, _, root => root
  | fuel + 1, i, root =>
      if i < ts.length then
        let r := parseStatement ts i fp
        parseLoop ts fp fuel (i + (if r.2 > 0 then r.2 else 1))
          (match r.1 with
           | some n => root.add_child n
           | none => root)
      else root

/-- `Option` string to the Python value stored in metadata. -/
def optVal : Option String → PyVal
  | none => vNone
  | some s => vStr s

/-- `JavaScriptParser.parse` up to id assignment: tokenize, parse the token
stream into a program root, wrap with the metadata of the source. -/
def jsParseCore (source_code : String) (fp : Option String) :
    UniversalSyntaxTree :=
  let tokens := tokenize source_code
  ⟨parseLoop tokens fp tokens.length 0
      ((jsNode .PROGRAM).set_attribute "language" (vStr "javascript")),
   [("language", vStr "javascript"), ("file_path", optVal fp),
    ("parser", vStr "JavaScriptParser"), ("token_count", vInt tokens.length)],
   "1.0"⟩

mutual

/-- Attach ids from the supply in creation (pre-)order, modelling the
`uuid.uuid4()` stream. -/
def assignIds (supply : Nat → String) : ASTNode → Nat → ASTNode × Nat
  | .mk _ t cs attrs sr ol, k =>
      let r := assignIdsList supply cs (k + 1)
      (.mk (supply k) t r.1 attrs sr ol, r.2)

def assignIdsList (supply : Nat → String) : List ASTNode → Nat → List ASTNode × Nat
  | [], k => ([], k)
  | c :: rest, k =>
      let rc := assignIds supply c k
      let rr := assignIdsList supply rest rc.2
      (rc.1 :: rr.1, rr.2)

end

/-- `JavaScriptParser.parse`, with the uuid stream explicit. -/
def jsParse (supply : Nat → String) (source_code : String)
    (fp : Option String) : UniversalSyntaxTree :=
  let t := jsParseCore source_code fp
  ⟨(assignIds supply t.root 0).1, t.metadata, t.version⟩

mutual

/-- Forget every node id. -/
def eraseIds : ASTNode → ASTNode
  | .mk _ t cs attrs sr ol => .mk "" t (eraseIdsList cs) attrs sr ol

def eraseIdsList : List ASTNode → List ASTNode
  | [] => []
  | c :: rest => eraseIds c :: eraseIdsList rest

end

/-- Forget every node id of a tree. -/
def eraseTreeIds (t : UniversalSyntaxTree) : UniversalSyntaxTree :=
  ⟨eraseIds t.root, t.metadata, t.version⟩

mutual

theorem eraseIds_assignIds (supply : Nat → String) :
    ∀ (n : ASTNode) (k : Nat), eraseIds (assignIds supply n k).1 = eraseIds n
  | .mk i t cs attrs sr ol, k => by
      simp only [assignIds, eraseIds]
      rw [eraseIdsList_assignIdsList supply cs (k + 1)]

theorem eraseIdsList_assignIdsList (supply : Nat → String) :
    ∀ (cs : List ASTNode) (k : Nat),
      eraseIdsList (assignIdsList supply cs k).1 = eraseIdsList cs
  | [], _ => rfl
  | c :: rest, k => by
      simp only [assignIdsList, eraseIdsList]
      rw [eraseIds_assignIds supply c k, eraseIdsList_assignIdsList supply rest]

end

/-! ## The Python adapter parser's conversion (`python_parser.py`)

`_convert_ast_node` walks the parse result of CPython's stdlib `ast` module.
That native tree is modelled by `PyAst`: the node's class name, its optional
position attributes, the class-specific fields the attribute extractor
reads, and the children `ast.iter_child_nodes` yields, in order. -/

/-- The position attributes of a native node (`lineno`, `col_offset`,
`end_lineno`, `end_col_offset`); `none` in the end fields stands for a
missing or `None` end attribute, which the source's
`getattr(node, 'end_lineno', node.lineno)` replaces by the start. -/
structure PyAstPos where
  lineno : Int
  col_offset : Int
  end_lineno : Option Int
  end_col_offset : Option Int

/-- A referenced native expression as the extractors inspect it:
`ast.Name` (read via `.id`), `ast.Attribute` (read via `.attr`), or
anything else. -/
inductive PyRef where
  | nameRef (id : String)
  | attrRef (attr : String)
  | otherRef

/-- An `ast.alias` of an import: `name` and optional `asname`. -/
structure PyAlias where
  name : String
  asname : Option String

/-- The class-specific fields `_process_node_attributes` reads. -/
inductive PyFields where
  | functionDefFields (name : String) (args : List String)
      (decorator_list : List PyRef)
  | classDefFields (name : String) (bases : List PyRef)
      (decorator_list : List PyRef)
  | nameFields (id : String) (ctxName : String)
  | constantFields (value : PyVal)
  | opFields (opName : String)
  | callFields (func : PyRef)
  | attributeFields (attr : String)
  | importFields (names : List PyAlias)
  | importFromFields (module : Option String) (level : Int)
      (names : List PyAlias)
  | noFields

/-- A native `ast` node: class name, position, extractor fields, children. -/
inductive PyAst where
  | mk (className : String) (pos : Option PyAstPos) (fields : PyFields)
      (children : List PyAst)

/-- `PythonParser._get_asu_node_type`: the static class → `NodeType` table,
with the generic expression-statement default for unmapped classes.  (The
legacy `ast.Num`/`ast.Str`/`ast.Bytes`/`ast.NameConstant` pre-checks of the
source also yield `LITERAL`; on the trees the supported CPython versions
produce, constants carry class `Constant` and reach the same entry.) -/
def getAsuNodeType (className : String) : NodeType :=
  match className with
  | "Module" => .PROGRAM
  | "FunctionDef" => .FUNCTION_DECLARATION
  | "AsyncFunctionDef" => .FUNCTION_DECLARATION
  | "ClassDef" => .CLASS_DECLARATION
  | "Return" => .RETURN_STATEMENT
  | "Delete" => .EXPRESSION_STATEMENT
  | "Assign" => .ASSIGNMENT_EXPRESSION
  | "AugAssign" => .ASSIGNMENT_EXPRESSION
  | "AnnAssign" => .VARIABLE_DECLARATION
  | "For" => .FOR_STATEMENT
  | "AsyncFor" => .FOR_STATEMENT
  | "While" => .WHILE_STATEMENT
  | "If" => .IF_STATEMENT
  | "With" => .BLOCK_STATEMENT
  | "AsyncWith" => .BLOCK_STATEMENT
  | "Raise" => .EXPRESSION_STATEMENT
  | "Try" => .BLOCK_STATEMENT
  | "Assert" => .EXPRESSION_STATEMENT
  | "Import" => .IMPORT_DECLARATION
  | "ImportFrom" => .IMPORT_DECLARATION
  | "Global" => .EXPRESSION_STATEMENT
  | "Nonlocal" => .EXPRESSION_STATEMENT
  | "Expr" => .EXPRESSION_STATEMENT
  | "Pass" => .EXPRESSION_STATEMENT
  | "Break" => .BREAK_STATEMENT
  | "Continue" => .CONTINUE_STATEMENT
  | "BoolOp" => .BINARY_EXPRESSION
  | "BinOp" => .BINARY_EXPRESSION
  | "UnaryOp" => .UNARY_EXPRESSION
  | "Lambda" => .FUNCTION_DECLARATION
  | "IfExp" => .IF_STATEMENT
  | "Dict" => .LITERAL
  | "Set" => .LITERAL
  | "ListComp" => .EXPRESSION_STATEMENT
  | "SetComp" => .EXPRESSION_STATEMENT
  | "DictComp" => .EXPRESSION_STATEMENT
  | "GeneratorExp" => .EXPRESSION_STATEMENT
  | "Await" => .EXPRESSION_STATEMENT
  | "Yield" => .EXPRESSION_STATEMENT
  | "YieldFrom" => .EXPRESSION_STATEMENT
  | "Compare" => .BINARY_EXPRESSION
  | "Call" => .CALL_EXPRESSION
  | "Constant" => .LITERAL
  | "Attribute" => .MEMBER_EXPRESSION
  | "Subscript" => .MEMBER_EXPRESSION
  | "Starred" => .EXPRESSION_STATEMENT
  | "Name" => .IDENTIFIER
  | "List" => .LITERAL
  | "Tuple" => .LITERAL
  | "Slice" => .EXPRESSION_STATEMENT
  | "Num" => .LITERAL
  | "Str" => .LITERAL
  | "Bytes" => .LITERAL
  | "NameConstant" => .LITERAL
  | _ => .EXPRESSION_STATEMENT

/-- Python's `isinstance(v, str)` etc. used below. -/
def pythonIsinstanceStr : PyVal → Bool
  | vStr _ => true
  | _ => false

/-- Python's `isinstance(v, int)`: true for ints *and* bools, `bool` being a
subclass of `int` in Python. -/
def pythonIsinstanceInt : PyVal → Bool
  | vInt _ => true
  | vBool _ => true
  | _ => false

/-- Python's `isinstance(v, float)`. -/
def pythonIsinstanceFloat : PyVal → Bool
  | vFloat _ => true
  | _ => false

/-- Python's `isinstance(v, bool)`. -/
def pythonIsinstanceBool : PyVal → Bool
  | vBool _ => true
  | _ => false

/-- Python's `v is None`. -/
def pythonIsNone : PyVal → Bool
  | vNone => true
  | _ => false

/-- `PythonParser._get_python_type`: the isinstance dispatch chain in source
order — str, int, float, bool, None, any. -/
def getPythonType (v : PyVal) : String :=
  if pythonIsinstanceStr v then DataType.STRING.value
  else if pythonIsinstanceInt v then DataType.INTEGER.value
  else if pythonIsinstanceFloat v then DataType.FLOAT.value
  else if pythonIsinstanceBool v then DataType.BOOLEAN.value
  else if pythonIsNone v then DataType.NULL.value
  else DataType.ANY.value

/-- A decorator list rendered as the FunctionDef branch renders it:
`ast.Name` decorators by `.id`, `ast.Attribute` decorators by `.attr`,
others skipped. -/
def decoratorNamesFn (decorator_list : List PyRef) : List PyVal :=
  decorator_list.filterMap fun d =>
    match d with
    | .nameRef i => some (vStr i)
    | .attrRef a => some (vStr a)
    | .otherRef => none

/-- A name list rendered as the ClassDef branches render base classes and
decorators: `ast.Name` entries only, by `.id`. -/
def nameRefIds (refs : List PyRef) : List PyVal :=
  refs.filterMap fun d =>
    match d with
    | .nameRef i => some (vStr i)
    | _ => none

/-- One import alias as the `names` loop renders it: `{'name': ...}` plus
`'alias'` when `asname` is set. -/
def aliasDict (a : PyAlias) : PyVal :=
  vDict ([("name", vStr a.name)] ++
    (match a.asname with
     | some s => [("alias", vStr s)]
     | none => []))

/-- `PythonParser._process_node_attributes`: the isinstance chain in source
order, each branch reading the class-specific fields. -/
def processNodeAttributes (className : String) (fields : PyFields)
    (n : ASTNode) : ASTNode :=
  if className = "Module" then n.set_attribute "type" (vStr "module")
  else if className = "FunctionDef" ∨ className = "AsyncFunctionDef" then
    match fields with
    | .functionDefFields name args decorator_list =>
        let n1 := ((n.set_attribute "name" (vStr name)).set_attribute
          "is_async" (vBool (className = "AsyncFunctionDef"))).set_attribute
          "parameters" (vList (args.map vStr))
        if decorator_list.isEmpty then n1
        else n1.set_attribute "decorators"
          (vList (decoratorNamesFn decorator_list))
    | _ => n
  else if className = "ClassDef" then
    match fields with
    | .classDefFields name bases decorator_list =>
        let n1 := (n.set_attribute "name" (vStr name)).set_attribute
          "base_classes" (vList (nameRefIds bases))
        if decorator_list.isEmpty then n1
        else n1.set_attribute "decorators" (vList (nameRefIds decorator_list))
    | _ => n
  else if className = "Name" then
    match fields with
    | .nameFields id ctxName =>
        (n.set_attribute "name" (vStr id)).set_attribute "context" (vStr ctxName)
    | _ => n
  else if className = "Constant" then
    match fields with
    | .constantFields v =>
        (n.set_attribute "value" v).set_attribute "data_type"
          (vStr (getPythonType v))
    | _ => n
  else if className = "Num" then
    match fields with
    | .constantFields v =>
        (n.set_attribute "value" v).set_attribute "data_type"
          (vStr DataType.NUMBER.value)
    | _ => n
  else if className = "Str" then
    match fields with
    | .constantFields v =>
        (n.set_attribute "value" v).set_attribute "data_type"
          (vStr DataType.STRING.value)
    | _ => n
  else if className = "BinOp" ∨ className = "UnaryOp" then
    match fields with
    | .opFields opName => n.set_attribute "operator" (vStr opName)
    | _ => n
  else if className = "Call" then
    match fields with
    | .callFields func =>
        match func with
        | .nameRef i => n.set_attribute "function_name" (vStr i)
        | .attrRef a => n.set_attribute "function_name" (vStr a)
        | .otherRef => n
    | _ => n
  else if className = "Attribute" then
    match fields with
    | .attributeFields attr => n.set_attribute "attribute" (vStr attr)
    | _ => n
  else if className = "Import" then
    match fields with
    | .importFields names =>
        n.set_attribute "names" (vList (names.map aliasDict))
    | _ => n
  else if className = "ImportFrom" then
    match fields with
    | .importFromFields module level names =>
        ((n.set_attribute "module" (optVal module)).set_attribute
          "level" (vInt level)).set_attribute "names"
          (vList (names.map aliasDict))
    | _ => n
  else n

mutual

/-- `PythonParser._convert_ast_node` up to id assignment: map the class to a
`NodeType`, attach the source range when position attributes are present,
run the attribute extractor, then convert and append every native child in
order. -/
def convertAstNode (fp : Option String) : PyAst → ASTNode
  | .mk className pos fields children =>
      let node0 : ASTNode := .mk "" (getAsuNodeType className) [] [] none
        (some "python")
      let node1 := match pos with
        | some p => node0.with_source_range (some
            ⟨⟨p.lineno, p.col_offset, fp⟩,
             ⟨p.end_lineno.getD p.lineno, p.end_col_offset.getD p.col_offset,
              fp⟩⟩)
        | none => node0
      let node2 := processNodeAttributes className fields node1
      (convertAstList fp children).foldl ASTNode.add_child node2

def convertAstList (fp : Option String) : List PyAst → List ASTNode
  | [] => []
  | c :: rest => convertAstNode fp c :: convertAstList fp rest

end

/-- A Python `SyntaxError` as the native `ast.parse` layer raises it. -/
structure PySyntaxError where
  msg : String
  filename : String
  lineno : Nat
  offset : Nat
deriving DecidableEq, Repr

/-- `str(e)` of a `SyntaxError` with position: `msg (filename, line N)`. -/
def pySynErrStr (e : PySyntaxError) : String :=
  e.msg ++ " (" ++ e.filename ++ ", line " ++ toString e.lineno ++ ")"

/-- `PythonParser.parse` up to id assignment, as a function of the native
`ast.parse` outcome: on a native `SyntaxError`, the raised `ValueError`
embedding it; on success, the converted tree with the metadata of the
source (`ast_version`: the `ast` module has no `version_info` attribute, so
the `hasattr` guard stores `None`). -/
def pythonParseCore (native : Except PySyntaxError PyAst)
    (fp : Option String) : Except String UniversalSyntaxTree :=
  match native with
  | .error e => .error ("Erreur de syntaxe Python: " ++ pySynErrStr e)
  | .ok tree =>
      .ok ⟨convertAstNode fp tree,
        [("language", vStr "python"), ("file_path", optVal fp),
         ("parser", vStr "PythonParser"), ("ast_version", vNone)],
        "1.0"⟩

/-- `PythonParser.parse`, with the uuid stream explicit. -/
def pythonParse (supply : Nat → String) (native : Except PySyntaxError PyAst)
    (fp : Option String) : Except String UniversalSyntaxTree :=
  match pythonParseCore native fp with
  | .error m => .error m
  | .ok t => .ok ⟨(assignIds supply t.root 0).1, t.metadata, t.version⟩

/-- Two fixed distinct uuid streams, standing for two runs of `uuid.uuid4()`. -/
def uuidStreamA : Nat → String := fun k => "a" ++ toString k

def uuidStreamB : Nat → String := fun k => "b" ++ toString k

/-- Counterexample to C3 as stated: two runs of `parse` on the identical
input `"x"` whose uuid streams differ (as `uuid.uuid4()` streams do) yield
trees that are not identical — the root ids already differ — so a parse
output is not a function of the parse inputs once node identities are
included. -/
theorem parse_identity_ce :
    jsParse uuidStreamA "x" none ≠ jsParse uuidStreamB "x" none := by
  intro h
  have h2 : (jsParse uuidStreamA "x" none).root.id =
      (jsParse uuidStreamB "x" none).root.id :=
    congrArg (fun t => t.root.id) h
  have ha : (jsParse uuidStreamA "x" none).root.id = "a0" := rfl
  have hb : (jsParse uuidStreamB "x" none).root.id = "b0" := rfl
  rw [ha, hb] at h2
  exact absurd h2 (by decide)

/-- C3 (amended). `detect_language` is deterministic, and every `parse` run
— the hand-written JavaScript parser and the Python adapter alike — is
deterministic in everything *except* the node ids: whatever uuid streams two
runs on identical inputs draw, the resulting trees agree after erasing ids —
same type tags, children, attributes, source ranges, language tags, metadata
and version (for the adapter, on the same native `ast.parse` outcome, the
native layer being a deterministic external function of the same source).
(The ids themselves differ between runs, each node getting a fresh
`uuid.uuid4()`; see the counterexample.) -/
theorem parse_deterministic_mod_ids :
    (∀ (s1 s2 : Nat → String) (src : String) (fp : Option String),
      eraseTreeIds (jsParse s1 src fp) = eraseTreeIds (jsParse s2 src fp)) ∧
    (∀ (s1 s2 : Nat → String) (native : Except PySyntaxError PyAst)
      (fp : Option String),
      (pythonParse s1 native fp).map eraseTreeIds =
        (pythonParse s2 native fp).map eraseTreeIds) ∧
    (∀ (reg : ParserRegistry) (src : String) (fp : Option String),
      detect_language reg src fp = detect_language reg src fp) := by
  refine ⟨fun s1 s2 src fp => ?_, fun s1 s2 native fp => ?_, fun _ _ _ => rfl⟩
  · simp only [jsParse, eraseTreeIds]
    rw [eraseIds_assignIds s1, eraseIds_assignIds s2]
  · cases native with
    | error e => rfl
    | ok tree =>
        simp only [pythonParse, pythonParseCore, Except.map, eraseTreeIds]
        rw [eraseIds_assignIds s1, eraseIds_assignIds s2]

/-- The tree (up to node ids) that `"const x = 5;"` parses to: one
variable-declaration node (`kind="const"`, `name="x"`) under the program
root, with exactly one child, an integer literal 5. -/
def constX5Tree : UniversalSyntaxTree :=
  ⟨.mk "" .PROGRAM
      [.mk "" .VARIABLE_DECLARATION
        [.mk "" .LITERAL []
          [("value", vInt 5), ("data_type", vStr "integer")]
          (some ⟨⟨1, 10, none⟩, ⟨1, 11, none⟩⟩) (some "javascript")]
        [("kind", vStr "const"), ("name", vStr "x")]
        (some ⟨⟨1, 0, none⟩, ⟨1, 12, none⟩⟩) (some "javascript")]
      [("language", vStr "javascript")] none (some "javascript"),
   [("language", vStr "javascript"), ("file_path", vNone),
    ("parser", vStr "JavaScriptParser"), ("token_count", vInt 5)],
   "1.0"⟩

/-- C8. Parsing `"const x = 5;"` with the hand-written JavaScript parser
produces (for any uuid stream, up to node ids) exactly one
variable-declaration node, with `kind="const"`, `name="x"`, and exactly one
child: a literal node with integer value 5 and `data_type="integer"`. -/
theorem js_parse_const_x_5 (supply : Nat → String) :
    eraseTreeIds (jsParse supply "const x = 5;" none) = constX5Tree := by
  simp only [jsParse, eraseTreeIds]
  rw [eraseIds_assignIds supply]
  rfl

/-! ## Analysis utilities (`ast_api.py`): cyclomatic estimate (C7) -/

mutual

/-- The `count_nodes` collection of `ast_api.py`: the node itself, then its
children recursively, in order (pre-order flattening of the whole tree). -/
def flattenNodes : ASTNode → List ASTNode
  | n@(.mk _ _ cs _ _ _) => n :: flattenNodesList cs

def flattenNodesList : List ASTNode → List ASTNode
  | [] => []
  | c :: rest => flattenNodes c ++ flattenNodesList rest

end

/-- `control_flow_nodes` of `_estimate_cyclomatic_complexity`. -/
def controlFlowNodes : List NodeType :=
  [.IF_STATEMENT, .WHILE_STATEMENT, .FOR_STATEMENT, .BINARY_EXPRESSION]

/-- `_estimate_cyclomatic_complexity(nodes)`: base 1, plus one per node whose
type is in the control-flow list. -/
def estimateCyclomaticComplexity (nodes : List ASTNode) : Nat :=
  nodes.foldl
    (fun complexity node =>
      if node.type ∈ controlFlowNodes then complexity + 1 else complexity) 1

/-- Count of control-flow nodes in a flat list. -/
def countCF : List ASTNode → Nat
  | [] => 0
  | n :: rest => (if n.type ∈ controlFlowNodes then 1 else 0) + countCF rest

mutual

/-- The number of nodes of the tree whose type lies in the fixed control-flow
set, as the spec's formula counts them (over the whole tree, recursively):
the comparison point for the refinement claim C7. -/
def specControlFlowCount : ASTNode → Nat
  | .mk _ t cs _ _ _ =>
      (if t ∈ controlFlowNodes then 1 else 0) + specControlFlowCountList cs

def specControlFlowCountList : List ASTNode → Nat
  | [] => 0
  | c :: rest => specControlFlowCount c + specControlFlowCountList rest

end

theorem countCF_append (a b : List ASTNode) :
    countCF (a ++ b) = countCF a + countCF b := by
  induction a with
  | nil => simp [countCF]
  | cons n rest ih =>
      simp only [List.cons_append, countCF]
      simp only [List.append_eq] at ih ⊢
      rw [ih]
      omega

theorem estimate_foldl (l : List ASTNode) : ∀ acc : Nat,
    l.foldl
      (fun complexity node =>
        if node.type ∈ controlFlowNodes then complexity + 1 else complexity)
      acc = acc + countCF l := by
  induction l with
  | nil => intro acc; simp [countCF]
  | cons n rest ih =>
      intro acc
      simp only [List.foldl_cons, countCF, ih]
      by_cases h : n.type ∈ controlFlowNodes
      · simp [h]
        omega
      · simp [h]

mutual

theorem countCF_flatten : ∀ n : ASTNode, countCF (flattenNodes n) = specControlFlowCount n
  | .mk i t cs attrs sr ol => by
      simp only [flattenNodes, countCF, specControlFlowCount, ASTNode.type]
      rw [countCF_flattenList cs]

theorem countCF_flattenList :
    ∀ cs : List ASTNode, countCF (flattenNodesList cs) = specControlFlowCountList cs
  | [] => rfl
  | c :: rest => by
      simp only [flattenNodesList, specControlFlowCountList]
      rw [countCF_append, countCF_flatten c, countCF_flattenList rest]

end

/-- C7. The cyclomatic-complexity estimate of a tree equals 1 plus the
number of nodes of the whole tree whose type is in the fixed control-flow
set {if-statement, while-statement, for-statement, binary-expression}. -/
theorem cyclomatic_estimate_eq (t : UniversalSyntaxTree) :
    estimateCyclomaticComplexity (flattenNodes t.root) =
      1 + specControlFlowCount t.root := by
  rw [estimateCyclomaticComplexity, estimate_foldl, countCF_flatten]

/-! ## The Python adapter parser (`python_parser.py`): C6 and C10 -/

/-- The `ast.Constant` branch of `_process_node_attributes`: set `value`,
then `data_type` from `_get_python_type`. -/
def constantNodeAttributes (v : PyVal) : List (String × PyVal) :=
  dictSet (dictSet [] "value" v) "data_type" (vStr (getPythonType v))

/-- C10. A Python boolean constant (`True` or `False`) is annotated
`data_type="integer"`, not `"boolean"`: `isinstance(value, int)` is tested
before `isinstance(value, bool)` and holds for bools. -/
theorem python_bool_literal_integer :
    (∀ b : Bool, dictGet (constantNodeAttributes (vBool b)) "data_type" =
      some (vStr "integer")) ∧
    getPythonType (vBool true) ≠ "boolean" ∧
    getPythonType (vBool false) ≠ "boolean" := by
  refine ⟨fun b => by cases b <;> rfl, by decide, by decide⟩

/-- `PythonParser.parse` as a function of the native `ast.parse` outcome:
on a native `SyntaxError` it raises `ValueError` whose message embeds the
native error (with its line number) and performs no partial-tree recovery;
on native success it returns the converted tree. -/
def pythonParseResult (native : Except PySyntaxError Unit)
    (convert : Unit → UniversalSyntaxTree) :
    Except String UniversalSyntaxTree :=
  match native with
  | .error e => .error ("Erreur de syntaxe Python: " ++ pySynErrStr e)
  | .ok t => .ok (convert t)

/-- Modelled from the spec: the native grammar layer is CPython's stdlib
`ast` module, outside this repository; on the malformed input `"def f(:"`
`ast.parse` raises `SyntaxError("invalid syntax")` at line 1. -/
def defFColonErr : PySyntaxError := ⟨"invalid syntax", "<string>", 1, 8⟩

/-- The native outcome for the input `"def f(:"`. -/
def nativeResultDefFColon : Except PySyntaxError Unit := .error defFColonErr

/-- C6. When the native grammar rejects the source, the adapter raises its
parse error (a `ValueError` whose message embeds the native line number)
and never returns a tree; for `"def f(:"` the carried line number is 1 ≥ 1
and the message contains `"line 1"`. -/
theorem python_parse_error_def_f :
    (∀ (e : PySyntaxError) (convert : Unit → UniversalSyntaxTree),
      pythonParseResult (.error e) convert =
        .error ("Erreur de syntaxe Python: " ++ pySynErrStr e)) ∧
    pythonParseResult nativeResultDefFColon (fun _ => dummyTree) =
      .error "Erreur de syntaxe Python: invalid syntax (<string>, line 1)" ∧
    strContains "Erreur de syntaxe Python: invalid syntax (<string>, line 1)"
      "line 1" = true ∧
    1 ≤ defFColonErr.lineno ∧
    (∀ t, pythonParseResult nativeResultDefFColon (fun _ => dummyTree) ≠ .ok t) := by
  refine ⟨fun e convert => rfl, rfl, by decide, by decide, fun t h => by cases h⟩

/-- Witness for C1 at a concrete node and tree. -/
theorem roundtrip_from_dict_to_dict_witness :
    ASTNode.from_dict (ASTNode.to_dict constX5Tree.root) = some constX5Tree.root ∧
    UniversalSyntaxTree.from_json constX5Tree.to_json = some constX5Tree :=
  ⟨roundtrip_from_dict_to_dict.1 constX5Tree.root,
   roundtrip_from_dict_to_dict.2 constX5Tree⟩

/-- A small concrete native tree (`def f(x): return x` shaped) for the C3
witness. -/
def sampleNativeAst : PyAst :=
  .mk "Module" none .noFields
    [.mk "FunctionDef" (some ⟨1, 0, some 1, some 18⟩)
      (.functionDefFields "f" ["x"] [])
      [.mk "Return" (some ⟨1, 10, some 1, some 18⟩) .noFields
        [.mk "Name" (some ⟨1, 17, some 1, some 18⟩)
          (.nameFields "x" "Load") []]]]

/-- Witness for C3 (amended) at concrete inputs: two different uuid streams
on the same source give id-erased-equal trees, for both parsers. -/
theorem parse_deterministic_mod_ids_witness :
    eraseTreeIds (jsParse uuidStreamA "x" none) =
      eraseTreeIds (jsParse uuidStreamB "x" none) ∧
    (pythonParse uuidStreamA (.ok sampleNativeAst) none).map eraseTreeIds =
      (pythonParse uuidStreamB (.ok sampleNativeAst) none).map eraseTreeIds ∧
    detect_language ParserRegistry.empty "x" none =
      detect_language ParserRegistry.empty "x" none :=
  ⟨parse_deterministic_mod_ids.1 uuidStreamA uuidStreamB "x" none,
   parse_deterministic_mod_ids.2.1 uuidStreamA uuidStreamB
     (.ok sampleNativeAst) none,
   parse_deterministic_mod_ids.2.2 ParserRegistry.empty "x" none⟩

/-- Witness for C6 at the concrete native error of `"def f(:"`. -/
theorem python_parse_error_def_f_witness :
    pythonParseResult (.error defFColonErr) (fun _ => dummyTree) =
      .error ("Erreur de syntaxe Python: " ++ pySynErrStr defFColonErr) ∧
    pythonParseResult nativeResultDefFColon (fun _ => dummyTree) ≠
      .ok dummyTree :=
  ⟨python_parse_error_def_f.1 defFColonErr (fun _ => dummyTree),
   python_parse_error_def_f.2.2.2.2 dummyTree⟩

/-- Witness for C7 at a concrete tree. -/
theorem cyclomatic_estimate_eq_witness :
    estimateCyclomaticComplexity (flattenNodes constX5Tree.root) =
      1 + specControlFlowCount constX5Tree.root :=
  cyclomatic_estimate_eq constX5Tree

/-- Witness for C8 at a concrete uuid stream. -/
theorem js_parse_const_x_5_witness :
    eraseTreeIds (jsParse uuidStreamA "const x = 5;" none) = constX5Tree :=
  js_parse_const_x_5 uuidStreamA

/-- Witness for C10 at the two boolean constants. -/
theorem python_bool_literal_integer_witness :
    dictGet (constantNodeAttributes (vBool true)) "data_type" =
      some (vStr "integer") ∧
    dictGet (constantNodeAttributes (vBool false)) "data_type" =
      some (vStr "integer") :=
  ⟨python_bool_literal_integer.1 true, python_bool_literal_integer.1 false⟩
